import Mathlib

/-!
# Verification of the Portkey latency-benchmark core

Shallow embedding of `benchmark.js` (class `PortkeyBenchmark`): the statistics
engine (`calculateStats`, `calculatePercentile`), the request executor
(`makeRequest`, `extractOpenAIProcessingTime`), the preflight validator
(`runPreflightTest`), the provider selector (`determineProvidersFromMode`),
the report generator's comparison summary (`generateReport`), the CLI entry
point's config normalization (`main`), and the concurrent worker pool
(`runConcurrentRequests`) as an interleaving transition system.

Modelling conventions:
* JS numbers are embedded as `ℚ` (all values appearing in the verified
  properties are exact in ℚ). Division by zero, which yields `Infinity`/`NaN`
  in JS, is modelled by the explicit `JSNum` type at the single place the
  source can divide by zero (the comparison-summary percentage).
* JS strings used only as tags are `String`; strings that undergo
  character-level operations (prompt truncation, substring probing) are
  `List Char`.
* `Array.prototype.sort((a,b) => a-b)` (ascending numeric sort) is embedded
  as `List.insertionSort (· ≤ ·)`.
* Wall-clock timestamps (`new Date().toISOString()`) are dropped from the
  record model: no verified property mentions them.
-/

/-- One Request Record, as built by `makeRequest` (benchmark.js lines 89-128).
The `timestamp` field is omitted (see module comment). -/
structure RequestRecord where
  provider : String
  totalTime : ℚ
  openaiProcessingTime : Option ℚ
  networkLatency : Option ℚ
  success : Bool
  error : Option (List Char) := none
  errorType : Option String := none
  tokensUsed : ℕ
  promptTokens : ℕ
  completionTokens : ℕ
deriving DecidableEq, Repr

/-- The statistics object returned by `calculateStats` (lines 537-600).
`successfulCount`/`failedCount` are `Option` because the zero-success branch
(lines 541-557) returns an object without those properties (JS `undefined`). -/
structure BenchStats where
  count : ℕ
  successfulCount : Option ℕ := none
  failedCount : Option ℕ := none
  successRate : ℚ
  failureRate : ℚ
  avgTotalTime : ℚ
  avgOpenAITime : ℚ
  avgNetworkLatency : ℚ
  medianTotalTime : ℚ
  p95TotalTime : ℚ
  p99TotalTime : ℚ
  minTotalTime : ℚ
  maxTotalTime : ℚ
  totalTokens : ℕ
  avgTokensPerRequest : ℚ
deriving DecidableEq, Repr

/-- The helper `calculatePercentile` defined inside `calculateStats`
(lines 566-581): linear interpolation on a sorted array. `Math.floor` /
`Math.ceil` are `Int.floor` / `Int.ceil` on ℚ; `sortedArray[i]` is `getD i 0`
(all indices used are in bounds for the inputs the source feeds it). -/
def calculatePercentile (sortedArray : List ℚ) (percentile : ℚ) : ℚ :=
  if sortedArray.length = 0 then 0
  else if sortedArray.length = 1 then sortedArray.headD 0
  else
    let index : ℚ := percentile / 100 * ((sortedArray.length : ℚ) - 1)
    let lower : ℤ := ⌊index⌋
    let upper : ℤ := ⌈index⌉
    if lower = upper then sortedArray.getD lower.toNat 0
    else
      let weight : ℚ := index - (lower : ℚ)
      sortedArray.getD lower.toNat 0 * (1 - weight) + sortedArray.getD upper.toNat 0 * weight

/-- The percentile rule as worded in the spec (§4.5): index = p/100 × (n−1);
an integral index (fractional part zero) selects that element, otherwise the
floor and ceiling elements are interpolated with weight the fractional part;
a one-element array yields its element for any percentile. Stated from the
spec's words for the refinement comparison in claim C4. -/
def percentileSpec (arr : List ℚ) (p : ℚ) : ℚ :=
  if arr.length = 1 then arr.headD 0
  else
    let index : ℚ := p / 100 * ((arr.length : ℚ) - 1)
    if Int.fract index = 0 then arr.getD (⌊index⌋).toNat 0
    else
      arr.getD (⌊index⌋).toNat 0 * (1 - Int.fract index)
        + arr.getD (⌈index⌉).toNat 0 * Int.fract index

/-- `calculateStats` (lines 537-600). `reduce((sum, x) => sum + x, 0)` is
`foldl (· + ·) 0`; `.filter(t => t !== null)` on an option-valued projection
is `filterMap id`; `totalTimes[0] || 0` agrees with `headD 0` (the list is
nonempty in this branch, and `|| 0` maps a stored 0 to 0). -/
def calculateStats (results : List RequestRecord) : BenchStats :=
  let successfulResults := results.filter (fun r => r.success)
  let failedResults := results.filter (fun r => !r.success)
  if successfulResults.length = 0 then
    { count := 0
      successRate := 0
      failureRate := 100
      avgTotalTime := 0
      avgOpenAITime := 0
      avgNetworkLatency := 0
      medianTotalTime := 0
      p95TotalTime := 0
      p99TotalTime := 0
      minTotalTime := 0
      maxTotalTime := 0
      totalTokens := 0
      avgTokensPerRequest := 0 }
  else
    let totalTimes := List.insertionSort (· ≤ ·) (successfulResults.map (fun r => r.totalTime))
    let openaiTimes := (successfulResults.map (fun r => r.openaiProcessingTime)).filterMap id
    let networkLatencies := (successfulResults.map (fun r => r.networkLatency)).filterMap id
    let totalTokens := successfulResults.foldl (fun sum r => sum + r.tokensUsed) 0
    { count := results.length
      successfulCount := some successfulResults.length
      failedCount := some failedResults.length
      successRate := ((successfulResults.length : ℚ) / (results.length : ℚ)) * 100
      failureRate := ((failedResults.length : ℚ) / (results.length : ℚ)) * 100
      avgTotalTime := totalTimes.foldl (· + ·) 0 / (totalTimes.length : ℚ)
      avgOpenAITime :=
        if 0 < openaiTimes.length then openaiTimes.foldl (· + ·) 0 / (openaiTimes.length : ℚ)
        else 0
      avgNetworkLatency :=
        if 0 < networkLatencies.length then
          networkLatencies.foldl (· + ·) 0 / (networkLatencies.length : ℚ)
        else 0
      medianTotalTime := calculatePercentile totalTimes 50
      p95TotalTime := calculatePercentile totalTimes 95
      p99TotalTime := calculatePercentile totalTimes 99
      minTotalTime := totalTimes.headD 0
      maxTotalTime := totalTimes.getLastD 0
      totalTokens := totalTokens
      avgTokensPerRequest := (totalTokens : ℚ) / (successfulResults.length : ℚ) }

/-- The exact object returned by the zero-success branch of `calculateStats`
(lines 541-557): note `count := 0`, not the number of attempts. -/
def zeroSuccessStats : BenchStats :=
  { count := 0
    successRate := 0
    failureRate := 100
    avgTotalTime := 0
    avgOpenAITime := 0
    avgNetworkLatency := 0
    medianTotalTime := 0
    p95TotalTime := 0
    p99TotalTime := 0
    minTotalTime := 0
    maxTotalTime := 0
    totalTokens := 0
    avgTokensPerRequest := 0 }

/-- A concrete failed record (one attempt, zero successes). -/
def c3FailedRecord : RequestRecord :=
  { provider := "openai"
    totalTime := 5
    openaiProcessingTime := none
    networkLatency := none
    success := false
    tokensUsed := 0
    promptTokens := 0
    completionTokens := 0 }

/-- Claim C3, counterexample: for the one-element all-failed collection
`[c3FailedRecord]` the returned `count` is 0, not the total number of
attempts (1), refuting "count reflects total attempts". -/
theorem claim_C3_cex :
    (calculateStats [c3FailedRecord]).count = 0 ∧ [c3FailedRecord].length = 1 ∧ (0 : ℕ) ≠ 1 := by
  refine ⟨rfl, rfl, by decide⟩

/-- Claim C3 as amended: on a collection with zero successful records,
`calculateStats` returns (totally, without any exception) the fixed
zero-valued object: count 0 (not total attempts), success rate 0, failure
rate 100, and every timing/token field 0. -/
theorem claim_C3 (results : List RequestRecord)
    (h : ∀ r ∈ results, r.success = false) :
    calculateStats results = zeroSuccessStats := by
  have hfil : results.filter (fun r => r.success) = [] := by
    rw [List.filter_eq_nil_iff]
    intro a ha
    simp [h a ha]
  unfold calculateStats zeroSuccessStats
  simp [hfil]

/-- Witness for claim C3 at the concrete input `[c3FailedRecord]`. -/
theorem claim_C3_witness : calculateStats [c3FailedRecord] = zeroSuccessStats :=
  claim_C3 [c3FailedRecord] (by decide)

/-- An index is integral exactly when floor and ceiling coincide (bridges the
source's `lower === upper` test with the spec's "index is integral"). -/
theorem floor_eq_ceil_iff_fract (x : ℚ) : ⌊x⌋ = ⌈x⌉ ↔ Int.fract x = 0 := by
  constructor
  · intro h
    have h1 := Int.floor_le x
    have h2 := Int.le_ceil x
    rw [← h] at h2
    have hx : (⌊x⌋ : ℚ) = x := le_antisymm h1 h2
    unfold Int.fract
    linarith
  · intro h
    have hx : x = (⌊x⌋ : ℚ) := by
      have : x - ⌊x⌋ = 0 := h
      linarith
    rw [hx, Int.ceil_intCast, Int.floor_intCast]

theorem headD_eq_getD (l : List ℚ) (d : ℚ) : l.headD d = l.getD 0 d := by
  cases l <;> rfl

theorem getD_length_sub_one (l : List ℚ) (d : ℚ) (h : l ≠ []) :
    l.getD (l.length - 1) d = l.getLastD d := by
  induction l with
  | nil => simp at h
  | cons a t ih =>
    cases t with
    | nil => rfl
    | cons b t2 =>
      have h2 := ih (by simp)
      simpa using h2

/-- Claim C4: `calculatePercentile` realizes the spec's interpolation rule
(`percentileSpec`), and consequently: a length-1 array yields its element for
any percentile, percentile 0 yields the first element, percentile 100 yields
the last element. -/
theorem claim_C4 (arr : List ℚ) (p : ℚ) (hlen : 1 ≤ arr.length)
    (h0 : 0 ≤ p) (h100 : p ≤ 100) :
    calculatePercentile arr p = percentileSpec arr p ∧
    (arr.length = 1 → calculatePercentile arr p = arr.headD 0) ∧
    calculatePercentile arr 0 = arr.headD 0 ∧
    calculatePercentile arr 100 = arr.getLastD 0 := by
  have hne0 : arr.length ≠ 0 := by omega
  have hnil : arr ≠ [] := by
    cases arr
    · simp at hne0
    · simp
  refine ⟨?_, ?_, ?_, ?_⟩
  · unfold calculatePercentile percentileSpec
    by_cases h1 : arr.length = 1
    · simp [h1]
    · simp only [if_neg hne0, if_neg h1]
      set index := p / 100 * ((arr.length : ℚ) - 1) with hidx
      by_cases hint : Int.fract index = 0
      · have hfc : ⌊index⌋ = ⌈index⌉ := (floor_eq_ceil_iff_fract index).mpr hint
        simp [hfc, hint]
      · have hfc : ¬ ⌊index⌋ = ⌈index⌉ := fun h => hint ((floor_eq_ceil_iff_fract index).mp h)
        rw [if_neg hfc, if_neg hint]
        unfold Int.fract
        ring
  · intro h1
    unfold calculatePercentile
    simp [h1]
  · unfold calculatePercentile
    by_cases h1 : arr.length = 1
    · simp [h1, headD_eq_getD]
    · have hz : (0 : ℚ) / 100 * ((arr.length : ℚ) - 1) = 0 := by ring
      simp only [if_neg hne0, if_neg h1, hz]
      simp [headD_eq_getD, List.head?_eq_getElem?]
  · unfold calculatePercentile
    by_cases h1 : arr.length = 1
    · cases arr with
      | nil => simp at hne0
      | cons a t =>
        cases t with
        | nil => simp
        | cons b t2 => simp at h1
    · have hcast : ((arr.length : ℚ) - 1) = ((arr.length - 1 : ℕ) : ℚ) := by
        have : (1 : ℚ) ≤ (arr.length : ℚ) := by exact_mod_cast hlen
        push_cast [Nat.cast_sub hlen]
        ring
      have hz : (100 : ℚ) / 100 * ((arr.length : ℚ) - 1) = ((arr.length - 1 : ℕ) : ℚ) := by
        rw [← hcast]; ring
      simp only [if_neg hne0, if_neg h1, hz]
      rw [Int.floor_natCast, Int.ceil_natCast]
      simp [Int.toNat_natCast, List.getLast?_eq_getElem?]

/-- Witness for claim C4 at the concrete input `arr = [10, 20]`, `p = 95`. -/
theorem claim_C4_witness :
    calculatePercentile [(10 : ℚ), 20] 95 = percentileSpec [(10 : ℚ), 20] 95 ∧
    (([(10 : ℚ), 20] : List ℚ).length = 1 →
      calculatePercentile [(10 : ℚ), 20] 95 = ([(10 : ℚ), 20] : List ℚ).headD 0) ∧
    calculatePercentile [(10 : ℚ), 20] 0 = ([(10 : ℚ), 20] : List ℚ).headD 0 ∧
    calculatePercentile [(10 : ℚ), 20] 100 = ([(10 : ℚ), 20] : List ℚ).getLastD 0 :=
  claim_C4 [(10 : ℚ), 20] 95 (by decide) (by decide) (by decide)

/-- `needle` occurs at the start of `hay` (JS `String.prototype.startsWith`,
used to build substring containment). -/
def leadsWith : List Char → List Char → Bool
  | [], _ => true
  | _ :: _, [] => false
  | a :: as, b :: bs => a == b && leadsWith as bs

/-- JS `String.prototype.includes`: `needle` occurs contiguously in `hay`. -/
def containsSeq (needle : List Char) (hay : List Char) : Bool :=
  match hay with
  | [] => leadsWith needle []
  | _ :: rest => leadsWith needle hay || containsSeq needle rest

/-- The ordered candidate header names (lines 145-156). -/
def processingTimeHeaders : List (List Char) :=
  ["openai-processing-ms", "x-openai-processing-ms", "openai-processing-time-ms",
   "x-processing-time-ms", "processing-time-ms", "x-request-time-ms",
   "x-processing-time", "x-request-time", "request-time",
   "processing-time"].map String.toList

def lowerChars (cs : List Char) : List Char := cs.map Char.toLower

/-- First pass of `extractOpenAIProcessingTime` (lines 159-168): probe the
ordered candidate list; a present header whose parsed value is a positive
number wins, anything else falls through to the next candidate. A header
value is modelled post-`parseFloat`: `Option ℚ`, `none` for NaN. -/
def firstPassProbe (headers : List (List Char × Option ℚ)) :
    List (List Char) → Option ℚ
  | [] => none
  | name :: rest =>
    match List.lookup name headers with
    | some (some t) => if 0 < t then some t else firstPassProbe headers rest
    | _ => firstPassProbe headers rest

/-- Second, case-insensitive fallback pass (lines 171-182): first header whose
lowercased key contains "processing" and ("ms" or "time") with a positive
parsed value. -/
def fallbackProbe : List (List Char × Option ℚ) → Option ℚ
  | [] => none
  | (key, value) :: rest =>
    let lowerKey := lowerChars key
    if containsSeq "processing".toList lowerKey &&
        (containsSeq "ms".toList lowerKey || containsSeq "time".toList lowerKey) then
      match value with
      | some t => if 0 < t then some t else fallbackProbe rest
      | none => fallbackProbe rest
    else fallbackProbe rest

/-- `extractOpenAIProcessingTime` (lines 132-195): `none` when the response
has no headers (`if (!headers) return null`), otherwise the first pass, then
the fallback, then `null`. -/
def extractOpenAIProcessingTime
    (headers : Option (List (List Char × Option ℚ))) : Option ℚ :=
  match headers with
  | none => none
  | some hs =>
    match firstPassProbe hs processingTimeHeaders with
    | some t => some t
    | none => fallbackProbe hs

/-- Error classification by substring matching (lines 107-114). -/
def classifyError (message : List Char) : String :=
  if containsSeq "rate limit".toList message || containsSeq "429".toList message then
    "rate_limit"
  else if containsSeq "timeout".toList message || containsSeq "ECONNRESET".toList message then
    "timeout"
  else if containsSeq "ECONNREFUSED".toList message then "connection_refused"
  else "unknown"

/-- The token-usage block of a successful response body
(`responseData.usage?.total_tokens || 0`, lines 96-98): the usage object and
each of its fields may be absent. -/
structure Usage where
  total_tokens : Option ℕ := none
  prompt_tokens : Option ℕ := none
  completion_tokens : Option ℕ := none
deriving DecidableEq, Repr

/-- The outcome of the one Completer call inside `makeRequest`: a response
(raw headers view + usage), or a thrown error with its message. -/
inductive CompleterOutcome where
  | success (headers : Option (List (List Char × Option ℚ))) (usage : Option Usage)
  | failure (message : List Char)
deriving DecidableEq, Repr

/-- `makeRequest` (lines 54-130) as a function of the completer outcome and
the measured wall time `totalTime = endTime - startTime`. The
`openaiProcessingTime ? totalTime - openaiProcessingTime : null` conditional
is JS truthiness: a stored 0 would yield `null` (the extractor in fact never
returns 0, see `extract_pos`). -/
def makeRequest (provider : String) (outcome : CompleterOutcome) (totalTime : ℚ) :
    RequestRecord :=
  match outcome with
  | .success headers usage =>
    let openaiProcessingTime := extractOpenAIProcessingTime headers
    { provider := provider
      totalTime := totalTime
      openaiProcessingTime := openaiProcessingTime
      networkLatency :=
        match openaiProcessingTime with
        | some t => if t = 0 then none else some (totalTime - t)
        | none => none
      success := true
      tokensUsed := (usage.bind (fun u => u.total_tokens)).getD 0
      promptTokens := (usage.bind (fun u => u.prompt_tokens)).getD 0
      completionTokens := (usage.bind (fun u => u.completion_tokens)).getD 0 }
  | .failure message =>
    { provider := provider
      totalTime := totalTime
      openaiProcessingTime := none
      networkLatency := none
      success := false
      error := some message
      errorType := some (classifyError message)
      tokensUsed := 0
      promptTokens := 0
      completionTokens := 0 }

theorem firstPassProbe_pos (hs : List (List Char × Option ℚ))
    (names : List (List Char)) (t : ℚ) :
    firstPassProbe hs names = some t → 0 < t := by
  induction names with
  | nil => simp [firstPassProbe]
  | cons n rest ih =>
    simp only [firstPassProbe]
    cases hl : List.lookup n hs with
    | none => exact ih
    | some v =>
      cases v with
      | none => exact ih
      | some q =>
        dsimp only
        by_cases hq : 0 < q
        · rw [if_pos hq]
          rintro h
          cases h
          exact hq
        · rw [if_neg hq]
          exact ih

theorem fallbackProbe_pos (hs : List (List Char × Option ℚ)) (t : ℚ) :
    fallbackProbe hs = some t → 0 < t := by
  induction hs with
  | nil => simp [fallbackProbe]
  | cons kv rest ih =>
    obtain ⟨key, value⟩ := kv
    simp only [fallbackProbe]
    split
    · cases value with
      | none => exact ih
      | some q =>
        dsimp only
        by_cases hq : 0 < q
        · rw [if_pos hq]
          rintro h
          cases h
          exact hq
        · rw [if_neg hq]
          exact ih
    · exact ih

/-- The extractor only ever reports positive processing times. -/
theorem extract_pos (headers : Option (List (List Char × Option ℚ))) (t : ℚ) :
    extractOpenAIProcessingTime headers = some t → 0 < t := by
  cases headers with
  | none => simp [extractOpenAIProcessingTime]
  | some hs =>
    simp only [extractOpenAIProcessingTime]
    cases hfp : firstPassProbe hs processingTimeHeaders with
    | some q =>
      intro h
      cases h
      exact firstPassProbe_pos hs processingTimeHeaders t hfp
    | none => exact fallbackProbe_pos hs t

/-- Headers declaring an 800 ms processing time. -/
def c5Headers : List (List Char × Option ℚ) :=
  [("openai-processing-ms".toList, some 800)]

/-- Record with total time 1000 ms and processing time 800 ms. -/
def c5Record1 : RequestRecord := makeRequest "openai" (.success (some c5Headers) none) 1000

/-- Record with total time 1206 ms and processing time 800 ms. -/
def c5Record2 : RequestRecord := makeRequest "openai" (.success (some c5Headers) none) 1206

/-- Claim C5: a record produced by `makeRequest` has
`networkLatency = totalTime - processingTime` exactly when a processing time
was extracted and `networkLatency = none` otherwise; failed records carry no
processing time, no network latency, and zero token usage; and the concrete
1000/1206 ms pair with 800 ms processing time yields latencies 200/406 with
average 303. -/
theorem claim_C5 (provider : String) (outcome : CompleterOutcome) (totalTime : ℚ) :
    ((makeRequest provider outcome totalTime).openaiProcessingTime = none →
      (makeRequest provider outcome totalTime).networkLatency = none) ∧
    (∀ t, (makeRequest provider outcome totalTime).openaiProcessingTime = some t →
      (makeRequest provider outcome totalTime).networkLatency = some (totalTime - t)) ∧
    ((makeRequest provider outcome totalTime).success = false →
      (makeRequest provider outcome totalTime).openaiProcessingTime = none ∧
      (makeRequest provider outcome totalTime).networkLatency = none ∧
      (makeRequest provider outcome totalTime).tokensUsed = 0 ∧
      (makeRequest provider outcome totalTime).promptTokens = 0 ∧
      (makeRequest provider outcome totalTime).completionTokens = 0) ∧
    c5Record1.networkLatency = some 200 ∧
    c5Record2.networkLatency = some 406 ∧
    (calculateStats [c5Record1, c5Record2]).avgNetworkLatency = 303 := by
  refine ⟨?_, ?_, ?_, ?_, ?_, ?_⟩
  · cases outcome with
    | success headers usage =>
      simp only [makeRequest]
      cases hx : extractOpenAIProcessingTime headers with
      | none => simp
      | some q => simp
    | failure message => simp [makeRequest]
  · intro t
    cases outcome with
    | success headers usage =>
      simp only [makeRequest]
      cases hx : extractOpenAIProcessingTime headers with
      | none => simp
      | some q =>
        have hq : 0 < q := extract_pos headers q hx
        have hq0 : q ≠ 0 := ne_of_gt hq
        dsimp only
        rw [if_neg hq0]
        intro h
        cases h
        rfl
    | failure message => simp [makeRequest]
  · cases outcome with
    | success headers usage => simp [makeRequest]
    | failure message => simp [makeRequest]
  · have h1 : c5Record1.networkLatency = some ((1000 : ℚ) - 800) := rfl
    rw [h1]
    norm_num
  · have h2 : c5Record2.networkLatency = some ((1206 : ℚ) - 800) := rfl
    rw [h2]
    norm_num
  · have h3 : (calculateStats [c5Record1, c5Record2]).avgNetworkLatency
        = (0 + ((1000 : ℚ) - 800) + ((1206 : ℚ) - 800)) / ((2 : ℕ) : ℚ) := rfl
    rw [h3]
    norm_num

/-- Witness for claim C5: the failure branch and the extracted-time branch at
concrete inputs. -/
theorem claim_C5_witness :
    (makeRequest "openai" (.failure "timeout".toList) 50).openaiProcessingTime = none ∧
    (makeRequest "openai" (.failure "timeout".toList) 50).networkLatency = none ∧
    (makeRequest "openai" (.failure "timeout".toList) 50).tokensUsed = 0 ∧
    c5Record1.networkLatency = some (1000 - 800) :=
  ⟨((claim_C5 "openai" (.failure "timeout".toList) 50).2.2.1 rfl).1,
   ((claim_C5 "openai" (.failure "timeout".toList) 50).2.2.1 rfl).2.1,
   ((claim_C5 "openai" (.failure "timeout".toList) 50).2.2.1 rfl).2.2.1,
   (claim_C5 "openai" (.success (some c5Headers) none) 1000).2.1 800 rfl⟩

/-- A run prompt: either a plain string or an array of role-tagged messages
(role, content), as accepted by `makeRequest` (lines 59-66). -/
inductive BenchPrompt where
  | str (chars : List Char)
  | msgs (messages : List (String × List Char))
deriving DecidableEq, Repr

/-- The probe prompt built by `runPreflightTest` (lines 201-203):
`prompt.substring(0, 100) + (prompt.length > 100 ? '...' : '')` for string
prompts, message arrays passed through unchanged. -/
def preflightPrompt (prompt : BenchPrompt) : BenchPrompt :=
  match prompt with
  | .str s => .str (s.take 100 ++ (if 100 < s.length then "...".toList else []))
  | .msgs ms => .msgs ms

/-- The character content of a string prompt (empty for message arrays). -/
def promptChars : BenchPrompt → List Char
  | .str s => s
  | .msgs _ => []

/-- A 101-character string prompt. -/
def c8LongPrompt : List Char := List.replicate 101 'a'

set_option maxRecDepth 4000 in
/-- Claim C8, counterexample: the probe prompt built from a 101-character
string prompt has 103 characters (first 100 plus the appended `'...'`),
refuting "at most 100 characters". -/
theorem claim_C8_cex :
    (promptChars (preflightPrompt (.str c8LongPrompt))).length = 103 ∧ ¬(103 ≤ 100) := by
  constructor
  · decide
  · decide

/-- Claim C8 as amended: for a string prompt the probe prompt keeps the first
100 characters and, when the prompt exceeds 100 characters, appends the
three-character ellipsis `'...'` (so its length is `min 100 n`, plus 3 when
`100 < n` — up to 103, not 100); prompts of at most 100 characters and
message-array prompts pass through unchanged. -/
theorem claim_C8 (s : List Char) (ms : List (String × List Char)) :
    (promptChars (preflightPrompt (.str s))).length
      = min 100 s.length + (if 100 < s.length then 3 else 0) ∧
    (s.length ≤ 100 → preflightPrompt (.str s) = .str s) ∧
    preflightPrompt (.msgs ms) = .msgs ms := by
  refine ⟨?_, ?_, rfl⟩
  · simp only [preflightPrompt, promptChars, List.length_append, List.length_take]
    by_cases h : 100 < s.length
    · simp [h]
    · simp [h]
  · intro hle
    simp only [preflightPrompt]
    have hnot : ¬ 100 < s.length := by omega
    rw [if_neg hnot, List.take_of_length_le hle, List.append_nil]

/-- Witness for claim C8 at the short prompt `"hi"` and the empty message
array. -/
theorem claim_C8_witness :
    (promptChars (preflightPrompt (.str "hi".toList))).length
      = min 100 "hi".toList.length + (if 100 < "hi".toList.length then 3 else 0) ∧
    preflightPrompt (.str "hi".toList) = .str "hi".toList ∧
    preflightPrompt (.msgs []) = .msgs [] :=
  ⟨(claim_C8 "hi".toList []).1,
   (claim_C8 "hi".toList []).2.1 (by decide),
   (claim_C8 "hi".toList []).2.2⟩

/-- `this.config.mode || 'comparison'` — the default applied at every point
that consults the mode (lines 38, 199, 307, 346, 613, 639, 735). `none`
models an absent `mode` field. -/
def effectiveMode (mode : Option String) : String := mode.getD "comparison"

/-- `determineProvidersFromMode` (lines 37-52): the pair
(shouldTestOpenAI, shouldTestPortkey), or the thrown configuration error. -/
def determineProvidersFromMode (mode : Option String) : Except String (Bool × Bool) :=
  match effectiveMode mode with
  | "comparison" => .ok (true, true)
  | "loadtest" => .ok (false, true)
  | m => .error ("Invalid mode: " ++ m ++ ". Supported modes: comparison, loadtest")

/-- The mode consult at the head of the preflight warning logic
(lines 307-308). -/
def preflightComparisonBranch (mode : Option String) : Bool :=
  effectiveMode mode == "comparison"

/-- A JS number at the one place the source divides by a possibly-zero value:
a finite value, or the IEEE non-finite results of that division. -/
inductive JSNum where
  | num (q : ℚ)
  | nan
  | inf
  | ninf
deriving DecidableEq, Repr

/-- JS division for a finite numerator/denominator: `x/0` is `Infinity`,
`-Infinity` or `NaN` by the sign of `x`. -/
def jsDiv (a b : ℚ) : JSNum :=
  if b = 0 then
    if a = 0 then .nan else if 0 < a then .inf else .ninf
  else .num (a / b)

/-- JS multiplication of the division result by a finite constant. -/
def jsMul (x : JSNum) (c : ℚ) : JSNum :=
  match x with
  | .num q => .num (q * c)
  | .nan => .nan
  | .inf => if c = 0 then .nan else if 0 < c then .inf else .ninf
  | .ninf => if c = 0 then .nan else if 0 < c then .ninf else .inf

/-- The comparison block of the report summary (lines 615-620). Only
`latencyOverheadPercentage` can divide by zero, so only it is a `JSNum`. -/
structure ComparisonSummary where
  latencyOverhead : ℚ
  latencyOverheadPercentage : JSNum
  networkLatencyDiff : ℚ
  successRateDiff : ℚ
deriving DecidableEq, Repr

/-- The `summary` object built by `generateReport` (lines 602-621). -/
structure ReportSummary where
  totalRequests : ℕ
  openaiStats : BenchStats
  portkeyStats : BenchStats
  comparison : Option ComparisonSummary
deriving DecidableEq, Repr

/-- `generateReport`'s summary construction (lines 602-621): the comparison
block is added only in comparison mode with at least one result on each
side; `latencyOverheadPercentage = ((p - o) / o) * 100` with no guard for
`o = 0`. -/
def generateReportSummary (mode : Option String)
    (openaiResults portkeyResults : List RequestRecord) : ReportSummary :=
  let openaiStats := calculateStats openaiResults
  let portkeyStats := calculateStats portkeyResults
  { totalRequests := max openaiResults.length portkeyResults.length
    openaiStats := openaiStats
    portkeyStats := portkeyStats
    comparison :=
      if effectiveMode mode = "comparison" ∧
          0 < openaiResults.length ∧ 0 < portkeyResults.length then
        some
          { latencyOverhead := portkeyStats.avgTotalTime - openaiStats.avgTotalTime
            latencyOverheadPercentage :=
              jsMul
                (jsDiv (portkeyStats.avgTotalTime - openaiStats.avgTotalTime)
                  openaiStats.avgTotalTime) 100
            networkLatencyDiff :=
              portkeyStats.avgNetworkLatency - openaiStats.avgNetworkLatency
            successRateDiff := portkeyStats.successRate - openaiStats.successRate }
      else none }

/-- Claim C9: an omitted `mode` is not a configuration error; provider
selection, the preflight mode branch, and the report shape all behave as
comparison mode, activating both providers. -/
theorem claim_C9 :
    determineProvidersFromMode none = .ok (true, true) ∧
    determineProvidersFromMode none = determineProvidersFromMode (some "comparison") ∧
    effectiveMode none = "comparison" ∧
    preflightComparisonBranch none = preflightComparisonBranch (some "comparison") ∧
    (∀ openaiResults portkeyResults : List RequestRecord,
      generateReportSummary none openaiResults portkeyResults
        = generateReportSummary (some "comparison") openaiResults portkeyResults) :=
  ⟨rfl, rfl, rfl, rfl, fun _ _ => rfl⟩

/-- A concrete successful record with total time 5 ms. -/
def c7SuccessRecord : RequestRecord :=
  { provider := "portkey"
    totalTime := 5
    openaiProcessingTime := none
    networkLatency := none
    success := true
    tokensUsed := 0
    promptTokens := 0
    completionTokens := 0 }

/-- Claim C7, counterexample: in comparison mode with one (failed) direct
record and one successful proxy record (average 5 ms), the direct average is
0 and the latency overhead percentage is the silently propagated `Infinity`,
not a sentinel such as null. -/
theorem claim_C7_cex :
    ((generateReportSummary (some "comparison") [c3FailedRecord] [c7SuccessRecord]).comparison.map
      (fun c => c.latencyOverheadPercentage)) = some JSNum.inf := by
  have h1 : ((generateReportSummary (some "comparison") [c3FailedRecord]
        [c7SuccessRecord]).comparison.map (fun c => c.latencyOverheadPercentage))
      = some (jsMul (jsDiv ((calculateStats [c7SuccessRecord]).avgTotalTime
          - (calculateStats [c3FailedRecord]).avgTotalTime)
          ((calculateStats [c3FailedRecord]).avgTotalTime)) 100) := rfl
  have h2 : (calculateStats [c3FailedRecord]).avgTotalTime = 0 := rfl
  have h3 : (calculateStats [c7SuccessRecord]).avgTotalTime = (0 + (5 : ℚ)) / ((1 : ℕ) : ℚ) := rfl
  rw [h1, h2, h3]
  norm_num [jsDiv, jsMul]

/-- Claim C7 as amended: when the comparison block is emitted and the direct
provider's average total time is 0, the percentage is the raw JS division
result — `Infinity` for a positive proxy average, `NaN` when the proxy
average is also 0, `-Infinity` were it negative — never a sentinel. -/
theorem claim_C7 (mode : Option String) (openaiResults portkeyResults : List RequestRecord)
    (hm : effectiveMode mode = "comparison")
    (ho : 0 < openaiResults.length) (hp : 0 < portkeyResults.length)
    (hzero : (calculateStats openaiResults).avgTotalTime = 0) :
    ((generateReportSummary mode openaiResults portkeyResults).comparison.map
      (fun c => c.latencyOverheadPercentage)) =
      some (if 0 < (calculateStats portkeyResults).avgTotalTime then JSNum.inf
            else if (calculateStats portkeyResults).avgTotalTime = 0 then JSNum.nan
            else JSNum.ninf) := by
  unfold generateReportSummary
  dsimp only
  rw [if_pos ⟨hm, ho, hp⟩]
  dsimp only [Option.map]
  rw [hzero, sub_zero]
  set q := (calculateStats portkeyResults).avgTotalTime with hq
  by_cases hq0 : q = 0
  · simp [jsDiv, jsMul, hq0]
  · by_cases hqpos : 0 < q
    · simp only [jsDiv, if_pos rfl, if_neg hq0, if_pos hqpos, jsMul]
      norm_num
    · simp only [jsDiv, if_pos rfl, if_neg hq0, if_neg hqpos, jsMul]
      norm_num

/-- Witness for claim C7 at the concrete one-failed / one-successful input. -/
theorem claim_C7_witness :
    ((generateReportSummary (some "comparison") [c3FailedRecord] [c7SuccessRecord]).comparison.map
      (fun c => c.latencyOverheadPercentage)) =
      some (if 0 < (calculateStats [c7SuccessRecord]).avgTotalTime then JSNum.inf
            else if (calculateStats [c7SuccessRecord]).avgTotalTime = 0 then JSNum.nan
            else JSNum.ninf) :=
  claim_C7 (some "comparison") [c3FailedRecord] [c7SuccessRecord] rfl
    (by decide) (by decide) rfl

/-- The two fatal preflight errors thrown on lines 298-304, carrying the
failed-provider list interpolated into the message. -/
inductive BenchmarkError where
  | allProvidersFailed (failed : List String)
  | someProvidersFailed (failed : List String)
deriving DecidableEq, Repr

/-- The value returned by a passing preflight (lines 338-342). -/
structure PreflightResult where
  openaiEnabled : Bool
  portkeyEnabled : Bool
deriving DecidableEq, Repr

/-- `enabledProviders` as accumulated on lines 285-296. -/
def enabledProviders (shouldTestOpenAI shouldTestPortkey : Bool) : List String :=
  (if shouldTestOpenAI then ["OpenAI"] else [])
    ++ (if shouldTestPortkey then ["Portkey"] else [])

/-- `failedProviders` as accumulated on lines 285-296: an enabled provider
whose probe did not succeed. -/
def failedProviders (shouldTestOpenAI shouldTestPortkey openaiSuccess portkeySuccess : Bool) :
    List String :=
  (if shouldTestOpenAI && !openaiSuccess then ["OpenAI"] else [])
    ++ (if shouldTestPortkey && !portkeySuccess then ["Portkey"] else [])

/-- The outcome evaluation of `runPreflightTest` (lines 280-342), as a
function of which providers the mode enables and whether each probe
succeeded. The processing-time checks below line 306 only log warnings and
do not affect the outcome. -/
def runPreflightTest (shouldTestOpenAI shouldTestPortkey openaiSuccess portkeySuccess : Bool) :
    Except BenchmarkError PreflightResult :=
  let enabled := enabledProviders shouldTestOpenAI shouldTestPortkey
  let failed := failedProviders shouldTestOpenAI shouldTestPortkey openaiSuccess portkeySuccess
  if failed.length = enabled.length then .error (.allProvidersFailed failed)
  else if 0 < failed.length then .error (.someProvidersFailed failed)
  else .ok { openaiEnabled := shouldTestOpenAI && openaiSuccess
             portkeyEnabled := shouldTestPortkey && portkeySuccess }

/-- The phase structure of `runBenchmark` (lines 345-412): the preflight runs
first and a thrown preflight error propagates before any worker is spawned;
`loadPhase` stands for the entire load phase (lines 370-411) and is reached
only on preflight success. -/
def runBenchmarkPhases (shouldTestOpenAI shouldTestPortkey openaiSuccess portkeySuccess : Bool)
    (loadPhase : PreflightResult → List RequestRecord × List RequestRecord) :
    Except BenchmarkError (List RequestRecord × List RequestRecord) :=
  (runPreflightTest shouldTestOpenAI shouldTestPortkey openaiSuccess portkeySuccess).map loadPhase

instance (ε α : Type) [DecidableEq ε] [DecidableEq α] : DecidableEq (Except ε α) := fun x y =>
  match x, y with
  | .ok a, .ok b =>
    if h : a = b then isTrue (by rw [h]) else isFalse (by intro hc; cases hc; exact h rfl)
  | .error a, .error b =>
    if h : a = b then isTrue (by rw [h]) else isFalse (by intro hc; cases hc; exact h rfl)
  | .ok _, .error _ => isFalse (by intro hc; cases hc)
  | .error _, .ok _ => isFalse (by intro hc; cases hc)

/-- Claim C6: if every active provider's probe failed the preflight throws
the all-providers error; if the failed set is nonempty but proper it throws
the some-providers error; and any preflight error short-circuits
`runBenchmark` before the load phase, so zero load-phase requests are
issued whatever the load phase would do. -/
theorem claim_C6 (sto stp os ps : Bool) :
    (failedProviders sto stp os ps = enabledProviders sto stp →
      failedProviders sto stp os ps ≠ [] →
      runPreflightTest sto stp os ps
        = .error (.allProvidersFailed (failedProviders sto stp os ps))) ∧
    (failedProviders sto stp os ps ≠ [] →
      failedProviders sto stp os ps ≠ enabledProviders sto stp →
      runPreflightTest sto stp os ps
        = .error (.someProvidersFailed (failedProviders sto stp os ps))) ∧
    (∀ loadPhase : PreflightResult → List RequestRecord × List RequestRecord,
      ∀ e : BenchmarkError, runPreflightTest sto stp os ps = .error e →
        runBenchmarkPhases sto stp os ps loadPhase = .error e) := by
  refine ⟨?_, ?_, ?_⟩
  · cases sto <;> cases stp <;> cases os <;> cases ps <;> decide
  · cases sto <;> cases stp <;> cases os <;> cases ps <;> decide
  · intro loadPhase e h
    unfold runBenchmarkPhases
    rw [h]
    rfl

/-- Witness for claim C6: comparison mode, direct probe fails, proxy probe
succeeds — the some-providers error is thrown and the load phase never runs. -/
theorem claim_C6_witness :
    runPreflightTest true true false true
      = .error (.someProvidersFailed ["OpenAI"]) ∧
    runBenchmarkPhases true true false true (fun _ => ([], []))
      = .error (.someProvidersFailed ["OpenAI"]) :=
  ⟨(claim_C6 true true false true).2.1 (by decide) (by decide),
   (claim_C6 true true false true).2.2 (fun _ => ([], []))
     (.someProvidersFailed ["OpenAI"])
     ((claim_C6 true true false true).2.1 (by decide) (by decide))⟩

/-- The run options consulted by the worker loop, plus the
preflight-validated provider flags (`this.openaiEnabled` /
`this.portkeyEnabled`, lines 367-368). A JS-falsy bound (absent or 0) is
`none`, matching the `this.config.maxRequests && ...` truthiness guards. -/
structure PoolConfig where
  maxRequests : Option ℕ
  testDuration : Option ℕ
  openaiEnabled : Bool
  portkeyEnabled : Bool
deriving DecidableEq, Repr

/-- The Shared Run State created on lines 374-379. -/
structure SharedState where
  requestCount : ℕ
  shouldStop : Bool
  maxRequestsReached : Bool
  timeLimit : Bool
deriving DecidableEq, Repr

/-- A worker's control position between the atomic segments of
`runConcurrentRequests` (lines 414-535). The JS event loop runs the code
between two `await`s atomically: `running` is at the loop head (lines
417-455 contain no await), `requesting n` is awaiting the `Promise.all` of
the round with sequence number `n` (line 469), `sleeping` is awaiting the
inter-request delay (line 531), `done` is after `break`. -/
inductive WorkerPhase where
  | running
  | requesting (seq : ℕ)
  | sleeping
  | done
deriving DecidableEq, Repr

/-- Global state of the pool: Shared Run State, every worker's phase, and
the two provider result collections (`this.results`), each entry recording
the sequence number of the pushed Request Record. -/
structure PoolState where
  shared : SharedState
  workers : List WorkerPhase
  openaiResults : List ℕ
  portkeyResults : List ℕ
deriving DecidableEq, Repr

/-- `elapsedTime >= this.config.testDuration` guarded by the truthiness of
`this.config.testDuration` (line 428). -/
def timeCheck (cfg : PoolConfig) (elapsed : ℕ) : Bool :=
  match cfg.testDuration with
  | some d => decide (d ≤ elapsed)
  | none => false

/-- `this.sharedState.requestCount >= this.config.maxRequests` guarded by
the truthiness of `this.config.maxRequests` (line 436). -/
def maxPreCheck (cfg : PoolConfig) (count : ℕ) : Bool :=
  match cfg.maxRequests with
  | some m => decide (m ≤ count)
  | none => false

/-- `currentRequestNumber > this.config.maxRequests` guarded by the
truthiness of `this.config.maxRequests` (line 448). -/
def maxPostCheck (cfg : PoolConfig) (currentRequestNumber : ℕ) : Bool :=
  match cfg.maxRequests with
  | some m => decide (m < currentRequestNumber)
  | none => false

/-- The atomic loop-head segment of `runConcurrentRequests` (lines 417-455):
stop-flag check, time-limit check, max-requests pre-check, counter
increment, post-increment re-check. Returns the updated shared state and
the worker's next phase (`requesting n` means the round for sequence number
`n` was launched). `elapsed` is the elapsed time observed on line 425. -/
def loopHead (cfg : PoolConfig) (elapsed : ℕ) (s : SharedState) :
    SharedState × WorkerPhase :=
  if s.shouldStop then (s, .done)
  else if timeCheck cfg elapsed then
    ({ s with shouldStop := true, timeLimit := true }, .done)
  else if maxPreCheck cfg s.requestCount then
    ({ s with shouldStop := true, maxRequestsReached := true }, .done)
  else
    let currentRequestNumber := s.requestCount + 1
    if maxPostCheck cfg currentRequestNumber then
      ({ s with requestCount := currentRequestNumber,
                shouldStop := true, maxRequestsReached := true }, .done)
    else
      ({ s with requestCount := currentRequestNumber }, .requesting currentRequestNumber)

/-- One interleaving step of the pool: some worker runs its next atomic
segment. `loopHeadStep` is the loop head; `requestDone` is the completion
of an awaited round (lines 469-499: both `push` calls happen in the same
segment); `wake` is the end of the inter-request sleep (line 531). -/
inductive PoolStep (cfg : PoolConfig) : PoolState → PoolState → Prop where
  | loopHeadStep (s : PoolState) (i : ℕ) (elapsed : ℕ)
      (h : s.workers[i]? = some .running) :
      PoolStep cfg s
        { shared := (loopHead cfg elapsed s.shared).1
          workers := s.workers.set i (loopHead cfg elapsed s.shared).2
          openaiResults := s.openaiResults
          portkeyResults := s.portkeyResults }
  | requestDone (s : PoolState) (i : ℕ) (seq : ℕ)
      (h : s.workers[i]? = some (.requesting seq)) :
      PoolStep cfg s
        { shared := s.shared
          workers := s.workers.set i .sleeping
          openaiResults := s.openaiResults ++ (if cfg.openaiEnabled then [seq] else [])
          portkeyResults := s.portkeyResults ++ (if cfg.portkeyEnabled then [seq] else []) }
  | wake (s : PoolState) (i : ℕ)
      (h : s.workers[i]? = some .sleeping) :
      PoolStep cfg s { s with workers := s.workers.set i .running }

/-- Reachability along pool steps. -/
def PoolReachable (cfg : PoolConfig) : PoolState → PoolState → Prop :=
  Relation.ReflTransGen (PoolStep cfg)

/-- The state at the start of the load phase (lines 374-385): fresh shared
state, `n` workers at their loop heads, empty result collections. -/
def initPoolState (n : ℕ) : PoolState :=
  { shared := { requestCount := 0, shouldStop := false,
                maxRequestsReached := false, timeLimit := false }
    workers := List.replicate n .running
    openaiResults := []
    portkeyResults := [] }

/-- Exhaustive case characterization of the loop-head segment, one
disjunct per exit of lines 417-455. -/
theorem loopHead_cases (cfg : PoolConfig) (elapsed : ℕ) (s : SharedState) :
    (s.shouldStop = true ∧ loopHead cfg elapsed s = (s, .done)) ∨
    (s.shouldStop = false ∧ timeCheck cfg elapsed = true ∧
      loopHead cfg elapsed s = ({ s with shouldStop := true, timeLimit := true }, .done)) ∨
    (s.shouldStop = false ∧ timeCheck cfg elapsed = false ∧
      maxPreCheck cfg s.requestCount = true ∧
      loopHead cfg elapsed s
        = ({ s with shouldStop := true, maxRequestsReached := true }, .done)) ∨
    (s.shouldStop = false ∧ timeCheck cfg elapsed = false ∧
      maxPreCheck cfg s.requestCount = false ∧
      maxPostCheck cfg (s.requestCount + 1) = true ∧
      loopHead cfg elapsed s
        = ({ s with requestCount := s.requestCount + 1,
                    shouldStop := true, maxRequestsReached := true }, .done)) ∨
    (s.shouldStop = false ∧ timeCheck cfg elapsed = false ∧
      maxPreCheck cfg s.requestCount = false ∧
      maxPostCheck cfg (s.requestCount + 1) = false ∧
      loopHead cfg elapsed s
        = ({ s with requestCount := s.requestCount + 1 },
           .requesting (s.requestCount + 1))) := by
  unfold loopHead
  by_cases h1 : s.shouldStop <;> by_cases h2 : timeCheck cfg elapsed <;>
    by_cases h3 : maxPreCheck cfg s.requestCount <;>
    by_cases h4 : maxPostCheck cfg (s.requestCount + 1) <;>
    simp [h1, h2, h3, h4]

/-- The loop-head segment never decreases the counter and never clears the
stop flag. -/
theorem loopHead_mono (cfg : PoolConfig) (elapsed : ℕ) (s : SharedState) :
    s.requestCount ≤ (loopHead cfg elapsed s).1.requestCount ∧
    (s.shouldStop = true → (loopHead cfg elapsed s).1.shouldStop = true) := by
  rcases loopHead_cases cfg elapsed s with
    ⟨h, heq⟩ | ⟨h, _, heq⟩ | ⟨h, _, _, heq⟩ | ⟨h, _, _, _, heq⟩ | ⟨h, _, _, _, heq⟩ <;>
    rw [heq] <;> simp [h]

/-- Any pool step: the counter never decreases and the stop flag latches. -/
theorem poolStep_mono (cfg : PoolConfig) (s s' : PoolState) (h : PoolStep cfg s s') :
    s.shared.requestCount ≤ s'.shared.requestCount ∧
    (s.shared.shouldStop = true → s'.shared.shouldStop = true) := by
  cases h with
  | loopHeadStep i elapsed hw => exact loopHead_mono cfg elapsed s.shared
  | requestDone i seq hw => exact ⟨le_refl _, fun h => h⟩
  | wake i hw => exact ⟨le_refl _, fun h => h⟩

/-- Terminal-reason flag discipline: each flag implies the stop flag, and
the two flags are never both set. -/
def FlagInv (s : SharedState) : Prop :=
  (s.maxRequestsReached = true → s.shouldStop = true) ∧
  (s.timeLimit = true → s.shouldStop = true) ∧
  ¬(s.maxRequestsReached = true ∧ s.timeLimit = true)

theorem loopHead_flagInv (cfg : PoolConfig) (elapsed : ℕ) (s : SharedState)
    (h : FlagInv s) : FlagInv (loopHead cfg elapsed s).1 := by
  unfold FlagInv at h ⊢
  rcases loopHead_cases cfg elapsed s with
    ⟨hs, heq⟩ | ⟨hs, _, heq⟩ | ⟨hs, _, _, heq⟩ | ⟨hs, _, _, _, heq⟩ | ⟨hs, _, _, _, heq⟩ <;>
    rw [heq] <;> simp_all

theorem poolStep_flagInv (cfg : PoolConfig) (s s' : PoolState) (h : PoolStep cfg s s')
    (hi : FlagInv s.shared) : FlagInv s'.shared := by
  cases h with
  | loopHeadStep i elapsed hw => exact loopHead_flagInv cfg elapsed s.shared hi
  | requestDone i seq hw => exact hi
  | wake i hw => exact hi

theorem reachable_flagInv (cfg : PoolConfig) (n : ℕ) (s : PoolState)
    (h : PoolReachable cfg (initPoolState n) s) : FlagInv s.shared := by
  induction h with
  | refl => exact ⟨by simp [initPoolState], by simp [initPoolState], by simp [initPoolState]⟩
  | tail hsteps hstep ih => exact poolStep_flagInv cfg _ _ hstep ih

/-- Claim C2: across every step of every worker the request counter never
decreases and the stop flag never reverts, and in every reachable state (in
particular at completion) the two terminal-reason flags are never both set. -/
theorem claim_C2 :
    (∀ (cfg : PoolConfig) (s s' : PoolState), PoolStep cfg s s' →
      s.shared.requestCount ≤ s'.shared.requestCount ∧
      (s.shared.shouldStop = true → s'.shared.shouldStop = true)) ∧
    (∀ (cfg : PoolConfig) (n : ℕ) (s : PoolState),
      PoolReachable cfg (initPoolState n) s →
      ¬(s.shared.maxRequestsReached = true ∧ s.shared.timeLimit = true)) :=
  ⟨fun cfg s s' h => poolStep_mono cfg s s' h,
   fun cfg n s h => (reachable_flagInv cfg n s h).2.2⟩

/-- The sequence number held by a worker that is awaiting its round. -/
def seqOf : WorkerPhase → Option ℕ
  | .requesting n => some n
  | _ => none

/-- Sequence numbers of all rounds currently in flight. -/
def inflightSeqs (ws : List WorkerPhase) : List ℕ := ws.filterMap seqOf

/-- The pool configuration of the claim-C1 scenario: `maxRequests = m`, no
time limit, both providers validated-enabled (comparison mode). -/
def comparisonPoolConfig (m : ℕ) : PoolConfig :=
  { maxRequests := some m
    testDuration := none
    openaiEnabled := true
    portkeyEnabled := true }

theorem filterMap_set_eq {α β : Type} (f : α → Option β) (l : List α) (i : ℕ) (a b : α)
    (h : l[i]? = some a) (ha : f a = none) (hb : f b = none) :
    (l.set i b).filterMap f = l.filterMap f := by
  induction l generalizing i with
  | nil => simp
  | cons x xs ih =>
    cases i with
    | zero =>
      have hx : x = a := by simpa using h
      subst hx
      simp [List.filterMap_cons, ha, hb]
    | succ j =>
      have h' : xs[j]? = some a := by simpa using h
      simp only [List.set_cons_succ, List.filterMap_cons]
      rw [ih j h']

theorem filterMap_set_start {α β : Type} (f : α → Option β) (l : List α) (i : ℕ)
    (a b : α) (n : β) (h : l[i]? = some a) (ha : f a = none) (hb : f b = some n) :
    ((l.set i b).filterMap f).Perm (n :: l.filterMap f) := by
  induction l generalizing i with
  | nil => simp at h
  | cons x xs ih =>
    cases i with
    | zero =>
      have hx : x = a := by simpa using h
      subst hx
      simp [List.filterMap_cons, ha, hb]
    | succ j =>
      have h' : xs[j]? = some a := by simpa using h
      simp only [List.set_cons_succ, List.filterMap_cons]
      cases hfx : f x with
      | none => exact ih j h'
      | some w =>
        exact ((ih j h').cons w).trans (List.Perm.swap n w _)

theorem filterMap_set_finish {α β : Type} (f : α → Option β) (l : List α) (i : ℕ)
    (a b : α) (n : β) (h : l[i]? = some a) (ha : f a = some n) (hb : f b = none) :
    (l.filterMap f).Perm (n :: (l.set i b).filterMap f) := by
  induction l generalizing i with
  | nil => simp at h
  | cons x xs ih =>
    cases i with
    | zero =>
      have hx : x = a := by simpa using h
      subst hx
      simp [List.filterMap_cons, ha, hb]
    | succ j =>
      have h' : xs[j]? = some a := by simpa using h
      simp only [List.set_cons_succ, List.filterMap_cons]
      cases hfx : f x with
      | none => exact ih j h'
      | some w =>
        exact ((ih j h').cons w).trans (List.Perm.swap n w _)

/-- Inductive invariant of the claim-C1 run (comparison mode, `maxRequests`
= `m`, no time limit, `n` workers): the counter is bounded by `m`; the time
flag never fires; stopping implies (and is implied by the presence of a
finished worker) the max-requests reason, which pins the counter at `m`;
and each provider's recorded sequence numbers together with the in-flight
ones are exactly `1..count`, each exactly once. -/
def C1Inv (m n : ℕ) (s : PoolState) : Prop :=
  s.workers.length = n ∧
  s.shared.requestCount ≤ m ∧
  s.shared.timeLimit = false ∧
  (s.shared.shouldStop = true → s.shared.maxRequestsReached = true) ∧
  (s.shared.maxRequestsReached = true → s.shared.requestCount = m) ∧
  (WorkerPhase.done ∈ s.workers → s.shared.shouldStop = true) ∧
  (inflightSeqs s.workers ++ s.openaiResults).Perm (List.range' 1 s.shared.requestCount) ∧
  (inflightSeqs s.workers ++ s.portkeyResults).Perm (List.range' 1 s.shared.requestCount)

theorem range'_concat_one (c : ℕ) :
    List.range' 1 (c + 1) = List.range' 1 c ++ [c + 1] := by
  rw [List.range'_concat]
  simp [Nat.add_comm]

theorem c1Inv_step (m n : ℕ) (s s' : PoolState)
    (h : PoolStep (comparisonPoolConfig m) s s') (hi : C1Inv m n s) : C1Inv m n s' := by
  obtain ⟨hlen, hcle, htl, hss, hmr, hdone, hpo, hpp⟩ := hi
  cases h with
  | loopHeadStep i elapsed hw =>
    rcases loopHead_cases (comparisonPoolConfig m) elapsed s.shared with
      ⟨hs, heq⟩ | ⟨hs, ht, heq⟩ | ⟨hs, ht, hc, heq⟩ | ⟨hs, ht, hc, hp, heq⟩ |
      ⟨hs, ht, hc, hp, heq⟩
    · -- stop flag observed: worker exits, nothing else changes
      rw [heq]
      have hfm := filterMap_set_eq seqOf s.workers i .running .done hw rfl rfl
      exact ⟨by simpa using hlen, hcle, htl, hss, hmr, fun _ => hs,
        by simpa [inflightSeqs, hfm] using hpo,
        by simpa [inflightSeqs, hfm] using hpp⟩
    · -- time-limit branch is unreachable: testDuration is none
      simp [timeCheck, comparisonPoolConfig] at ht
    · -- max-requests pre-check fires: flags set, counter frozen at m
      rw [heq]
      have hcm : m ≤ s.shared.requestCount := by
        simpa [maxPreCheck, comparisonPoolConfig] using hc
      have hfm := filterMap_set_eq seqOf s.workers i .running .done hw rfl rfl
      exact ⟨by simpa using hlen, hcle, htl, fun _ => rfl,
        fun _ => le_antisymm hcle hcm, fun _ => rfl,
        by simpa [inflightSeqs, hfm] using hpo,
        by simpa [inflightSeqs, hfm] using hpp⟩
    · -- post-increment re-check can never fire here
      have hcm : ¬ m ≤ s.shared.requestCount := by
        simpa [maxPreCheck, comparisonPoolConfig] using hc
      have hpm : m < s.shared.requestCount + 1 := by
        simpa [maxPostCheck, comparisonPoolConfig] using hp
      omega
    · -- increment: the worker claims sequence number count+1
      rw [heq]
      have hcm : ¬ m ≤ s.shared.requestCount := by
        simpa [maxPreCheck, comparisonPoolConfig] using hc
      have hperm := filterMap_set_start seqOf s.workers i .running
        (.requesting (s.shared.requestCount + 1)) (s.shared.requestCount + 1) hw rfl rfl
      refine ⟨by simpa using hlen, (by omega : s.shared.requestCount + 1 ≤ m), htl,
        ?_, ?_, ?_, ?_, ?_⟩
      · intro hcontra
        rw [hs] at hcontra
        cases hcontra
      · intro hmax
        have := hmr hmax
        omega
      · intro hmem
        rcases List.mem_or_eq_of_mem_set hmem with hin | habs
        · exact absurd (hdone hin) (by simp [hs])
        · cases habs
      · refine ((hperm.append_right s.openaiResults).trans ?_)
        rw [range'_concat_one]
        refine ((hpo.cons (s.shared.requestCount + 1)).trans ?_)
        exact (@List.perm_append_comm ℕ (List.range' 1 s.shared.requestCount)
          [s.shared.requestCount + 1]).symm
      · refine ((hperm.append_right s.portkeyResults).trans ?_)
        rw [range'_concat_one]
        refine ((hpp.cons (s.shared.requestCount + 1)).trans ?_)
        exact (@List.perm_append_comm ℕ (List.range' 1 s.shared.requestCount)
          [s.shared.requestCount + 1]).symm
  | requestDone i seq hw =>
    have hperm := filterMap_set_finish seqOf s.workers i (.requesting seq) .sleeping seq hw rfl rfl
    have hresult : ∀ results : List ℕ,
        (inflightSeqs s.workers ++ results).Perm (List.range' 1 s.shared.requestCount) →
        ((inflightSeqs (s.workers.set i .sleeping) ++ (results ++ [seq]))).Perm
          (List.range' 1 s.shared.requestCount) := by
      intro results hbase
      have h1 : (inflightSeqs (s.workers.set i .sleeping) ++ (results ++ [seq])).Perm
          (seq :: (inflightSeqs (s.workers.set i .sleeping) ++ results)) := by
        rw [← List.append_assoc]
        exact @List.perm_append_comm ℕ (inflightSeqs (s.workers.set i .sleeping) ++ results)
          [seq]
      have h2 : (seq :: (inflightSeqs (s.workers.set i .sleeping) ++ results)).Perm
          (inflightSeqs s.workers ++ results) := by
        have : (seq :: inflightSeqs (s.workers.set i .sleeping) ++ results).Perm
            (inflightSeqs s.workers ++ results) := (hperm.symm).append_right results
        simpa using this
      exact (h1.trans h2).trans hbase
    refine ⟨by simpa using hlen, hcle, htl, hss, hmr, ?_, ?_, ?_⟩
    · intro hmem
      rcases List.mem_or_eq_of_mem_set hmem with hin | habs
      · exact hdone hin
      · cases habs
    · simpa [comparisonPoolConfig] using hresult s.openaiResults hpo
    · simpa [comparisonPoolConfig] using hresult s.portkeyResults hpp
  | wake i hw =>
    have hfm := filterMap_set_eq seqOf s.workers i .sleeping .running hw rfl rfl
    refine ⟨by simpa using hlen, hcle, htl, hss, hmr, ?_,
      by simpa [inflightSeqs, hfm] using hpo,
      by simpa [inflightSeqs, hfm] using hpp⟩
    intro hmem
    rcases List.mem_or_eq_of_mem_set hmem with hin | habs
    · exact hdone hin
    · cases habs

theorem c1Inv_init (m n : ℕ) : C1Inv m n (initPoolState n) := by
  refine ⟨by simp [initPoolState], by simp [initPoolState], rfl, ?_, ?_, ?_, ?_, ?_⟩
  · intro h
    simp [initPoolState] at h
  · intro h
    simp [initPoolState] at h
  · intro h
    have := List.eq_of_mem_replicate h
    cases this
  · have hz : inflightSeqs (List.replicate n WorkerPhase.running) = [] := by
      rw [inflightSeqs, List.filterMap_eq_nil_iff]
      intro a ha
      rw [List.eq_of_mem_replicate ha]
      rfl
    simp [initPoolState, hz]
  · have hz : inflightSeqs (List.replicate n WorkerPhase.running) = [] := by
      rw [inflightSeqs, List.filterMap_eq_nil_iff]
      intro a ha
      rw [List.eq_of_mem_replicate ha]
      rfl
    simp [initPoolState, hz]

theorem c1Inv_reachable (m n : ℕ) (s : PoolState)
    (h : PoolReachable (comparisonPoolConfig m) (initPoolState n) s) : C1Inv m n s := by
  induction h with
  | refl => exact c1Inv_init m n
  | tail hsteps hstep ih => exact c1Inv_step m n _ _ hstep ih

/-- All workers have exited (`Promise.all(promises)` on line 388 resolved). -/
def allDone (s : PoolState) : Prop := ∀ ph ∈ s.workers, ph = WorkerPhase.done

/-- Claim C1: with concurrency 4 and maxRequests 10 (no time limit, both
providers enabled, instant completer — round completion is a single step),
every reachable state keeps the counter at most 10; the max-requests flag
pins it at exactly 10; the in-flight plus recorded sequence numbers are
exactly 1..count with no duplicate (no two workers ever observe the same
post-increment value); and at stop exactly 10 records were produced per
provider, carrying sequence numbers 1..10 each exactly once. -/
theorem claim_C1 (s : PoolState)
    (h : PoolReachable (comparisonPoolConfig 10) (initPoolState 4) s) :
    s.shared.requestCount ≤ 10 ∧
    (s.shared.maxRequestsReached = true → s.shared.requestCount = 10) ∧
    (inflightSeqs s.workers ++ s.openaiResults).Perm
      (List.range' 1 s.shared.requestCount) ∧
    (inflightSeqs s.workers ++ s.openaiResults).Nodup ∧
    (allDone s →
      s.shared.requestCount = 10 ∧
      s.shared.shouldStop = true ∧
      s.shared.maxRequestsReached = true ∧
      s.shared.timeLimit = false ∧
      s.openaiResults.Perm (List.range' 1 10) ∧
      s.portkeyResults.Perm (List.range' 1 10) ∧
      s.openaiResults.length = 10 ∧
      s.portkeyResults.length = 10 ∧
      s.openaiResults.Nodup ∧
      s.portkeyResults.Nodup) := by
  obtain ⟨hlen, hcle, htl, hss, hmr, hdone, hpo, hpp⟩ := c1Inv_reachable 10 4 s h
  have hnodupO : (inflightSeqs s.workers ++ s.openaiResults).Nodup :=
    hpo.symm.nodup (List.nodup_range' 1 s.shared.requestCount)
  refine ⟨hcle, hmr, hpo, hnodupO, ?_⟩
  intro hall
  have hin : inflightSeqs s.workers = [] := by
    rw [inflightSeqs, List.filterMap_eq_nil_iff]
    intro a ha
    rw [hall a ha]
    rfl
  have hmem : WorkerPhase.done ∈ s.workers := by
    cases hw : s.workers with
    | nil => rw [hw] at hlen; simp at hlen
    | cons w ws =>
      have hw' : w ∈ s.workers := by rw [hw]; exact List.mem_cons_self w ws
      have heqw := hall w hw'
      rw [← heqw]
      exact List.mem_cons_self w ws
  have hstop : s.shared.shouldStop = true := hdone hmem
  have hmax : s.shared.maxRequestsReached = true := hss hstop
  have hcount : s.shared.requestCount = 10 := hmr hmax
  rw [hin] at hpo hpp
  simp only [List.nil_append] at hpo hpp
  rw [hcount] at hpo hpp
  refine ⟨hcount, hstop, hmax, htl, hpo, hpp, ?_, ?_, ?_, ?_⟩
  · rw [hpo.length_eq, List.length_range']
  · rw [hpp.length_eq, List.length_range']
  · exact hpo.symm.nodup (List.nodup_range' 1 10)
  · exact hpp.symm.nodup (List.nodup_range' 1 10)

/-- A scheduler decision: which worker runs its next atomic segment (and,
at a loop head, the elapsed time it observes). -/
inductive SchedChoice where
  | head (i : ℕ) (elapsed : ℕ)
  | finish (i : ℕ)
  | wakeUp (i : ℕ)
deriving DecidableEq, Repr

/-- Executable one-step interpreter of `PoolStep`: `none` when the chosen
worker is not in the required phase. -/
def stepFn (cfg : PoolConfig) (c : SchedChoice) (s : PoolState) : Option PoolState :=
  match c with
  | .head i elapsed =>
    match s.workers[i]? with
    | some .running => some
        { shared := (loopHead cfg elapsed s.shared).1
          workers := s.workers.set i (loopHead cfg elapsed s.shared).2
          openaiResults := s.openaiResults
          portkeyResults := s.portkeyResults }
    | _ => none
  | .finish i =>
    match s.workers[i]? with
    | some (.requesting seq) => some
        { shared := s.shared
          workers := s.workers.set i .sleeping
          openaiResults := s.openaiResults ++ (if cfg.openaiEnabled then [seq] else [])
          portkeyResults := s.portkeyResults ++ (if cfg.portkeyEnabled then [seq] else []) }
    | _ => none
  | .wakeUp i =>
    match s.workers[i]? with
    | some .sleeping => some { s with workers := s.workers.set i .running }
    | _ => none

theorem stepFn_sound (cfg : PoolConfig) (c : SchedChoice) (s s' : PoolState)
    (h : stepFn cfg c s = some s') : PoolStep cfg s s' := by
  cases c with
  | head i elapsed =>
    simp only [stepFn] at h
    split at h
    · cases h
      exact PoolStep.loopHeadStep s i elapsed (by assumption)
    · cases h
  | finish i =>
    simp only [stepFn] at h
    split at h
    · cases h
      exact PoolStep.requestDone s i _ (by assumption)
    · cases h
  | wakeUp i =>
    simp only [stepFn] at h
    split at h
    · cases h
      exact PoolStep.wake s i (by assumption)
    · cases h

/-- Run a whole schedule. -/
def runChoices (cfg : PoolConfig) : List SchedChoice → PoolState → Option PoolState
  | [], s => some s
  | c :: cs, s =>
    match stepFn cfg c s with
    | some s1 => runChoices cfg cs s1
    | none => none

theorem runChoices_reachable (cfg : PoolConfig) (cs : List SchedChoice) :
    ∀ s s' : PoolState, runChoices cfg cs s = some s' → PoolReachable cfg s s' := by
  induction cs with
  | nil =>
    intro s s' h
    cases h
    exact Relation.ReflTransGen.refl
  | cons c cs ih =>
    intro s s' h
    revert h
    unfold runChoices
    cases hs : stepFn cfg c s with
    | none => intro h; cases h
    | some s1 =>
      intro h
      exact Relation.ReflTransGen.head (stepFn_sound cfg c s s1 hs) (ih s1 s' h)

/-- The claim-C1 schedule: worker 0 alone performs all 10 rounds, then every
worker observes the stop condition. -/
def c1Choices : List SchedChoice :=
  (List.replicate 10 [SchedChoice.head 0 0, SchedChoice.finish 0, SchedChoice.wakeUp 0]).flatten
    ++ [SchedChoice.head 0 0, SchedChoice.head 1 0, SchedChoice.head 2 0, SchedChoice.head 3 0]

/-- The final state of that schedule. -/
def c1Final : PoolState :=
  { shared := { requestCount := 10, shouldStop := true,
                maxRequestsReached := true, timeLimit := false }
    workers := List.replicate 4 .done
    openaiResults := List.range' 1 10
    portkeyResults := List.range' 1 10 }

set_option maxRecDepth 8000 in
theorem c1_run :
    runChoices (comparisonPoolConfig 10) c1Choices (initPoolState 4) = some c1Final := by
  decide

/-- Witness for claim C1: a complete concrete execution reaching the
all-done state with counter 10 and both result collections `[1..10]`. -/
theorem claim_C1_witness :
    c1Final.shared.requestCount = 10 ∧
    c1Final.shared.maxRequestsReached = true ∧
    c1Final.openaiResults.length = 10 ∧
    c1Final.portkeyResults.length = 10 ∧
    c1Final.openaiResults.Nodup ∧
    c1Final.portkeyResults.Nodup := by
  have h := claim_C1 c1Final
    (runChoices_reachable (comparisonPoolConfig 10) c1Choices (initPoolState 4) c1Final c1_run)
  have h2 := h.2.2.2.2 (fun ph hm => List.eq_of_mem_replicate hm)
  obtain ⟨a1, a2, a3, a4, a5, a6, a7, a8, a9, a10⟩ := h2
  exact ⟨a1, a3, a7, a8, a9, a10⟩

/-- A pool with neither bound configured and one worker. -/
def c2Cfg : PoolConfig :=
  { maxRequests := none, testDuration := none, openaiEnabled := true, portkeyEnabled := true }

/-- The state after the single worker's first loop-head segment. -/
def c2Next : PoolState :=
  { shared := { requestCount := 1, shouldStop := false,
                maxRequestsReached := false, timeLimit := false }
    workers := [.requesting 1]
    openaiResults := []
    portkeyResults := [] }

/-- Witness for claim C2 at a concrete step and a concrete reachable state. -/
theorem claim_C2_witness :
    ((initPoolState 1).shared.requestCount ≤ c2Next.shared.requestCount ∧
      ((initPoolState 1).shared.shouldStop = true → c2Next.shared.shouldStop = true)) ∧
    ¬((initPoolState 1).shared.maxRequestsReached = true ∧
      (initPoolState 1).shared.timeLimit = true) :=
  ⟨claim_C2.1 c2Cfg (initPoolState 1) c2Next
      (stepFn_sound c2Cfg (.head 0 0) (initPoolState 1) c2Next (by decide)),
   claim_C2.2 c2Cfg 1 (initPoolState 1) Relation.ReflTransGen.refl⟩

theorem loopHead_count_le (cfg : PoolConfig) (m : ℕ) (hm : cfg.maxRequests = some m)
    (elapsed : ℕ) (s : SharedState) (h : s.requestCount ≤ m) :
    (loopHead cfg elapsed s).1.requestCount ≤ m := by
  rcases loopHead_cases cfg elapsed s with
    ⟨_, heq⟩ | ⟨_, _, heq⟩ | ⟨_, _, _, heq⟩ | ⟨_, _, hc, _, heq⟩ | ⟨_, _, hc, _, heq⟩ <;>
    rw [heq] <;> try exact h
  · have : ¬ m ≤ s.requestCount := by simpa [maxPreCheck, hm] using hc
    exact (by omega : s.requestCount + 1 ≤ m)
  · have : ¬ m ≤ s.requestCount := by simpa [maxPreCheck, hm] using hc
    exact (by omega : s.requestCount + 1 ≤ m)

theorem poolStep_count_le (cfg : PoolConfig) (m : ℕ) (hm : cfg.maxRequests = some m)
    (s s' : PoolState) (h : PoolStep cfg s s')
    (hc : s.shared.requestCount ≤ m) : s'.shared.requestCount ≤ m := by
  cases h with
  | loopHeadStep i elapsed hw => exact loopHead_count_le cfg m hm elapsed s.shared hc
  | requestDone i seq hw => exact hc
  | wake i hw => exact hc

/-- With a max-requests bound configured, the shared counter of any
reachable pool state never exceeds the bound: the pool cannot issue
unboundedly many requests. -/
theorem reachable_count_le (cfg : PoolConfig) (m : ℕ) (hm : cfg.maxRequests = some m)
    (n : ℕ) (s : PoolState) (h : PoolReachable cfg (initPoolState n) s) :
    s.shared.requestCount ≤ m := by
  induction h with
  | refl => exact Nat.zero_le m
  | tail hsteps hstep ih => exact poolStep_count_le cfg m hm _ _ hstep ih

/-- The three numeric fields of the CLI configuration normalized by `main`
(lines 760-763). `none` models an absent field; `some 0` is the other falsy
number. (NaN, also falsy in JS, has no model here.) -/
structure MainConfig where
  concurrency : Option ℤ := none
  maxRequests : Option ℤ := none
  testDuration : Option ℤ := none
deriving DecidableEq, Repr

/-- JS `v || d` on a numeric config field: absent and 0 are falsy. -/
def jsOrDefault (v : Option ℤ) (d : ℤ) : ℤ :=
  match v with
  | none => d
  | some x => if x = 0 then d else x

/-- The defaulting block of `main` (lines 760-763):
`config.concurrency = config.concurrency || 5`, etc. -/
def setConfigDefaults (c : MainConfig) : MainConfig :=
  { concurrency := some (jsOrDefault c.concurrency 5)
    maxRequests := some (jsOrDefault c.maxRequests 100)
    testDuration := some (jsOrDefault c.testDuration 60) }

/-- Claim C10: `main` replaces falsy `concurrency`/`maxRequests`/
`testDuration` with 5/100/60; afterwards every field holds a truthy
(nonzero) value, so both stopping bounds are set; and a pool run whose
max-requests bound is set keeps its request counter bounded by it. -/
theorem claim_C10 (c : MainConfig) :
    ((c.concurrency = none ∨ c.concurrency = some 0) →
      (setConfigDefaults c).concurrency = some 5) ∧
    ((c.maxRequests = none ∨ c.maxRequests = some 0) →
      (setConfigDefaults c).maxRequests = some 100) ∧
    ((c.testDuration = none ∨ c.testDuration = some 0) →
      (setConfigDefaults c).testDuration = some 60) ∧
    (∀ k : ℤ, (setConfigDefaults c).concurrency = some k → k ≠ 0) ∧
    (∀ k : ℤ, (setConfigDefaults c).maxRequests = some k → k ≠ 0) ∧
    (∀ k : ℤ, (setConfigDefaults c).testDuration = some k → k ≠ 0) ∧
    (∀ (cfg : PoolConfig) (m n : ℕ) (s : PoolState), cfg.maxRequests = some m →
      PoolReachable cfg (initPoolState n) s → s.shared.requestCount ≤ m) := by
  have hval : ∀ (v : Option ℤ) (d : ℤ), d ≠ 0 → ∀ k : ℤ, some (jsOrDefault v d) = some k → k ≠ 0 := by
    intro v d hd k hk
    cases v with
    | none =>
      simp [jsOrDefault] at hk
      omega
    | some x =>
      by_cases hx : x = 0
      · simp [jsOrDefault, hx] at hk
        omega
      · simp [jsOrDefault, hx] at hk
        omega
  have hfalsy : ∀ (v : Option ℤ) (d : ℤ), (v = none ∨ v = some 0) → jsOrDefault v d = d := by
    intro v d hv
    rcases hv with rfl | rfl <;> simp [jsOrDefault]
  refine ⟨?_, ?_, ?_, ?_, ?_, ?_, ?_⟩
  · intro hv
    simp only [setConfigDefaults, hfalsy c.concurrency 5 hv]
  · intro hv
    simp only [setConfigDefaults, hfalsy c.maxRequests 100 hv]
  · intro hv
    simp only [setConfigDefaults, hfalsy c.testDuration 60 hv]
  · exact hval c.concurrency 5 (by decide)
  · exact hval c.maxRequests 100 (by decide)
  · exact hval c.testDuration 60 (by decide)
  · intro cfg m n s hm hr
    exact reachable_count_le cfg m hm n s hr

/-- Witness for claim C10 at the empty configuration and the initial pool
state of a bounded run. -/
theorem claim_C10_witness :
    (setConfigDefaults {}).concurrency = some 5 ∧
    (setConfigDefaults {}).maxRequests = some 100 ∧
    (setConfigDefaults {}).testDuration = some 60 ∧
    ((5 : ℤ) ≠ 0) ∧
    (initPoolState 4).shared.requestCount ≤ 10 := by
  have h := claim_C10 {}
  exact ⟨h.1 (Or.inl rfl), h.2.1 (Or.inl rfl), h.2.2.1 (Or.inl rfl),
    h.2.2.2.1 5 (h.1 (Or.inl rfl)),
    h.2.2.2.2.2.2 (comparisonPoolConfig 10) 10 4 (initPoolState 4) rfl
      Relation.ReflTransGen.refl⟩
